import Mathlib

/-!
# Verification of the gammux core pipeline

Shallow embedding of the `internal` package of the gammux repository
(alpha flattening, veil darkening, halo compensation, the error-diffusion
quantizer, fit/stretch resizing, and the gAMA chunk splicer), together
with theorems settling the specification claims.

Modeling conventions:
* Go `uint8`/`uint16`/`uint32` channel values are `ℕ` with explicit
  truncation/shift arithmetic where the source performs it.
* Go `float64` arithmetic is modeled by exact `ℚ` arithmetic; the two
  transcendental exponentials `x ^ (1/targetGamma)` and `x ^ targetGamma`
  used by the quantizer are abstracted as an explicit pair of functions
  (`GammaOps`), since the claims about the quantizer do not depend on
  their values.  The program constant `thumbnailDarkenFactor`, whose
  value is transcendental, is modeled exactly over `ℝ` with `Real.rpow`,
  and the two integer thresholds derived from it inside `clampround`
  are computed once and certified by bracketing lemmas.
* IEEE division by zero leaves the finite-number domain (yields ±Inf or
  NaN); a source division whose denominator can be zero is therefore
  modeled as a checked division returning `Option`/`none` in that case.
-/

namespace Gammux

/-! ### Source constants (`internal` package, `const` block and line 433) -/

/-- Source: `fullScaling = 2`. -/
def fullScaling : ℕ := 2

/-- Source: `nrgba64Max = 0xFFFF`. -/
def nrgba64Max : ℕ := 0xFFFF

/-- Source: `nrgbaMax = 0xFF`. -/
def nrgbaMax : ℕ := 0xFF

/-- Source: `sourceGamma = 2.2`, modeled as the exact rational `22/10`. -/
def sourceGammaQ : ℚ := 22 / 10

/-- Source: `targetGamma = sourceGamma * 20`.  (Equals `44`; the Go
`float64` computation `2.2 * 20` also yields exactly `44.0`.) -/
def targetGammaQ : ℚ := sourceGammaQ * 20

/-- Go's `math.Round`: round half away from zero. -/
def goRound (x : ℚ) : ℤ := if 0 ≤ x then ⌊x + 1 / 2⌋ else -⌊-x + 1 / 2⌋

/-- A 16-bit-per-channel NRGBA sample (`color.NRGBA64`). -/
structure Pixel64 where
  r : ℕ
  g : ℕ
  b : ℕ
  a : ℕ
deriving DecidableEq

/-- An 8-bit-per-channel NRGBA sample (`color.NRGBA`). -/
structure Pixel8 where
  r : ℕ
  g : ℕ
  b : ℕ
  a : ℕ
deriving DecidableEq

/-- `color.NRGBA64Model.Convert` applied to an 8-bit NRGBA pixel:
each channel is replicated into 16 bits (`x * 0x101`). -/
def pixel8To64 (p : Pixel8) : Pixel64 :=
  ⟨257 * p.r, 257 * p.g, 257 * p.b, 257 * p.a⟩

/-- `color.NRGBAModel.Convert` applied to a fully opaque NRGBA64 pixel
(`A = 0xFFFF`, which holds for every pixel the pipeline converts this
way): each channel is shifted right by 8 bits. -/
def pixel64To8 (p : Pixel64) : Pixel8 :=
  ⟨p.r / 256, p.g / 256, p.b / 256, p.a / 256⟩

/-- A pixel-addressable raster with fixed bounds anchored at the origin,
modeling the `image.NRGBA64` values the pipeline creates (all of which
have `Min = (0,0)`). -/
structure Raster64 where
  width : ℕ
  height : ℕ
  pix : ℕ → ℕ → Pixel64

/-! ### AlphaFlattener (`removeAlpha`, source lines 455–487) -/

/-- One color channel of `removeAlpha`'s translucent branch:
`uint16(uint32(c)*uint32(a)>>16 + nrgba64Max - uint32(a))`.
The products stay below `2 ^ 32` and the sum stays below `2 ^ 16`
(see `removeAlpha_amended`), so the conversions do not wrap. -/
def removeAlphaChannel (c a : ℕ) : ℕ :=
  c * a / 2 ^ 16 + nrgba64Max - a

/-- `removeAlpha`'s per-pixel action: composite onto an opaque white
backdrop; pixels that are already fully opaque are copied with
`A = nrgba64Max`. -/
def removeAlphaPix (p : Pixel64) : Pixel64 :=
  if p.a ≠ nrgba64Max then
    ⟨removeAlphaChannel p.r p.a, removeAlphaChannel p.g p.a,
      removeAlphaChannel p.b p.a, nrgba64Max⟩
  else
    ⟨p.r, p.g, p.b, nrgba64Max⟩

/-- `removeAlpha` (source lines 455–487): same bounds, every pixel
flattened by `removeAlphaPix`. -/
def removeAlpha (src : Raster64) : Raster64 :=
  { width := src.width, height := src.height,
    pix := fun x y => removeAlphaPix (src.pix x y) }

/-- The blend as the specification words it (claim C8): per channel
`out = in*alpha/alphaMax + backdrop*(alphaMax-alpha)/alphaMax`, rounded
to the nearest representable integer, with the opaque maximum-value
backdrop.  Written from the spec's words, for comparison with
`removeAlphaChannel`. -/
def specAlphaBlend (c a : ℕ) : ℤ :=
  goRound ((c * a : ℚ) / nrgba64Max
    + ((nrgba64Max : ℚ) * ((nrgba64Max : ℚ) - (a : ℚ))) / nrgba64Max)

/-- C8 counterexample: at `in = 65535, alpha = 32768` the code produces
`65534` (it truncates `in*alpha >> 16`, denominator `2^16`), while the
spec's formula `round(in*alpha/65535) + (65535 - alpha)` gives `65535`. -/
theorem removeAlpha_blend_cex :
    ((removeAlphaPix ⟨65535, 65535, 65535, 32768⟩).r : ℤ) = 65534 ∧
    specAlphaBlend 65535 32768 = 65535 ∧ (65534 : ℤ) ≠ 65535 := by
  refine ⟨by decide, ?_, by decide⟩
  show goRound ((65535 * 32768 : ℚ) / 65535
    + ((65535 : ℚ) * ((65535 : ℚ) - (32768 : ℚ))) / 65535) = 65535
  norm_num [goRound]

/-- C8 amended: `removeAlpha` keeps the dimensions, forces `alpha` to the
maximum, and each color channel of a translucent pixel becomes
`⌊in*alpha/2^16⌋ + (alphaMax - alpha)` (truncating shift, denominator
`2^16`, no rounding); an already-opaque pixel keeps its channels.  The
result never exceeds `nrgba64Max`, so the `uint16` conversion does not
wrap. -/
theorem removeAlpha_amended (src : Raster64) (x y : ℕ)
    (ha : (src.pix x y).a ≤ nrgba64Max) (hr : (src.pix x y).r ≤ nrgba64Max)
    (hg : (src.pix x y).g ≤ nrgba64Max) (hb : (src.pix x y).b ≤ nrgba64Max) :
    (removeAlpha src).width = src.width ∧
    (removeAlpha src).height = src.height ∧
    ((removeAlpha src).pix x y).a = nrgba64Max ∧
    ((removeAlpha src).pix x y).r =
      (if (src.pix x y).a ≠ nrgba64Max then
        (src.pix x y).r * (src.pix x y).a / 2 ^ 16 + nrgba64Max - (src.pix x y).a
      else (src.pix x y).r) ∧
    ((removeAlpha src).pix x y).g =
      (if (src.pix x y).a ≠ nrgba64Max then
        (src.pix x y).g * (src.pix x y).a / 2 ^ 16 + nrgba64Max - (src.pix x y).a
      else (src.pix x y).g) ∧
    ((removeAlpha src).pix x y).b =
      (if (src.pix x y).a ≠ nrgba64Max then
        (src.pix x y).b * (src.pix x y).a / 2 ^ 16 + nrgba64Max - (src.pix x y).a
      else (src.pix x y).b) ∧
    ((removeAlpha src).pix x y).r ≤ nrgba64Max ∧
    ((removeAlpha src).pix x y).g ≤ nrgba64Max ∧
    ((removeAlpha src).pix x y).b ≤ nrgba64Max := by
  set p := src.pix x y with hp
  have key : ∀ c : ℕ, c ≤ nrgba64Max → removeAlphaChannel c p.a ≤ nrgba64Max := by
    intro c hc
    unfold removeAlphaChannel
    have h1 : c * p.a / 2 ^ 16 ≤ p.a := by
      calc c * p.a / 2 ^ 16 ≤ 2 ^ 16 * p.a / 2 ^ 16 := by
            apply Nat.div_le_div_right
            exact Nat.mul_le_mul_right _ (le_trans hc (by norm_num [nrgba64Max]))
        _ = p.a := Nat.mul_div_cancel_left _ (by norm_num)
    omega
  refine ⟨rfl, rfl, ?_, ?_, ?_, ?_, ?_, ?_, ?_⟩ <;>
    simp only [removeAlpha, removeAlphaPix, ← hp] <;>
    split <;>
    simp_all [removeAlphaChannel]

/-- Witness for `removeAlpha_amended` at a concrete 1×1 translucent
raster. -/
theorem removeAlpha_amended_witness :
    (40000 : ℕ) ≤ nrgba64Max ∧ (1000 : ℕ) ≤ nrgba64Max ∧
    ((removeAlpha ⟨1, 1, fun _ _ => ⟨1000, 2000, 3000, 40000⟩⟩).pix 0 0).a
      = nrgba64Max ∧
    ((removeAlpha ⟨1, 1, fun _ _ => ⟨1000, 2000, 3000, 40000⟩⟩).pix 0 0).r
      ≤ nrgba64Max :=
  ⟨by decide, by decide,
    (removeAlpha_amended ⟨1, 1, fun _ _ => ⟨1000, 2000, 3000, 40000⟩⟩ 0 0
      (by decide) (by decide) (by decide) (by decide)).2.2.1,
    (removeAlpha_amended ⟨1, 1, fun _ _ => ⟨1000, 2000, 3000, 40000⟩⟩ 0 0
      (by decide) (by decide) (by decide) (by decide)).2.2.2.2.2.2.1⟩

/-! ### ChunkWriter (`GammaMuxData` splice, lines 777–799, and
`writeGamaPngChunk`, lines 801–812) -/

/-- The CRC-32 polynomial used by `hash/crc32.IEEE` (reflected form). -/
def crc32Poly : ℕ := 0xEDB88320

/-- One bit step of the reflected CRC-32.  The running value stays
below `2 ^ 32`. -/
def crc32Bit (r : ℕ) : ℕ :=
  if r % 2 = 1 then Nat.xor (r / 2) crc32Poly else r / 2

/-- One byte step: xor the byte into the low bits, then 8 bit steps. -/
def crc32Byte (r b : ℕ) : ℕ := crc32Bit^[8] (Nat.xor r b)

/-- The `crc32.NewIEEE` checksum of a byte sequence (initial value
`0xFFFFFFFF`, final complement). -/
def crc32 (data : List ℕ) : ℕ :=
  Nat.xor (data.foldl crc32Byte 0xFFFFFFFF) 0xFFFFFFFF

/-- `binary.BigEndian.PutUint32`: big-endian 4-byte encoding. -/
def be32 (n : ℕ) : List ℕ :=
  [n / 2 ^ 24 % 256, n / 2 ^ 16 % 256, n / 2 ^ 8 % 256, n % 256]

/-- The 8-byte needle `{0, 0, 0, 13, 'I', 'H', 'D', 'R'}` that
`GammaMuxData` searches for (the IHDR length field plus type). -/
def ihdrSig : List ℕ := [0, 0, 0, 13, 73, 72, 68, 82]

/-- `bytes.Index`: the index of the first occurrence of `needle` in
`hay`, `none` when absent (Go returns `-1`). -/
def bytesIndex (hay needle : List ℕ) : Option ℕ :=
  if needle.isPrefixOf hay then some 0
  else
    match hay with
    | [] => none
    | _ :: t => (bytesIndex t needle).map (· + 1)

/-- `uint32(math.Round(100000 / targetGamma))`: the encoded gamma value
(its value is `2273`; the Go `float64` division rounds identically since
`100000/44` is far from a half-integer). -/
def gamaValue : ℕ := (goRound (100000 / targetGammaQ)).toNat

/-- The four ASCII bytes `"gAMA"`. -/
def gamaType : List ℕ := [103, 65, 77, 65]

/-- The 16-byte chunk assembled by `writeGamaPngChunk`: 4-byte
big-endian length `4`, the type `"gAMA"`, the 4-byte big-endian encoded
value, and the CRC-32 over type + value (`gamaBuf[4:12]`). -/
def gamaRecord : List ℕ :=
  [0, 0, 0, 4] ++ gamaType ++ be32 gamaValue ++
    be32 (crc32 (gamaType ++ be32 gamaValue))

/-- The post-encode splice performed by `GammaMuxData`: find the first
occurrence of `ihdrSig`; if absent or at offset 0 (`headerIndex <= 0`)
fail with `"PNG missing header"` — nothing has been written to `dest`
at that point, since all writes follow the check; otherwise write the
stream up to the end of the IHDR record (`headerIndex + 13 + 4 + 4 + 4`
bytes), then `gamaRecord`, then the remainder unchanged. -/
def gammaMuxSplice (buf : List ℕ) : Except String (List ℕ) :=
  match bytesIndex buf ihdrSig with
  | none => .error "PNG missing header"
  | some i =>
    if i = 0 then .error "PNG missing header"
    else
      .ok (buf.take (i + 13 + 4 + 4 + 4) ++ gamaRecord ++
        buf.drop (i + 13 + 4 + 4 + 4))

/-- C9: when the encoded canvas byte stream does not contain the IHDR
signature, `GammaMuxData` returns the tagged format error
`"PNG missing header"` and writes no bytes to `dest`. -/
theorem gammaMuxSplice_missing_header (buf : List ℕ)
    (h : bytesIndex buf ihdrSig = none) :
    gammaMuxSplice buf = .error "PNG missing header" := by
  simp [gammaMuxSplice, h]

/-- Witness for `gammaMuxSplice_missing_header` at the concrete stream
`[1, 2, 3]`. -/
theorem gammaMuxSplice_missing_header_witness :
    bytesIndex [1, 2, 3] ihdrSig = none ∧
    gammaMuxSplice [1, 2, 3] = .error "PNG missing header" :=
  ⟨by decide, gammaMuxSplice_missing_header [1, 2, 3] (by decide)⟩

/-- A concrete 26-byte stream: a one-byte prefix, the IHDR signature,
and 17 filler bytes (13 data + 4 CRC of the IHDR record). -/
def c1Buf : List ℕ := 1 :: (ihdrSig ++ List.replicate 17 0)

/-- C1 counterexample: on `c1Buf` the code splices in `gamaRecord`,
which is 16 bytes long (4 length + 4 type + 4 value + 4 CRC) — not the
20 bytes the claim states — so the output is 16, not 20, bytes longer
than the input. -/
theorem gammaMuxSplice_record_cex :
    gammaMuxSplice c1Buf =
      .ok (c1Buf.take 26 ++ gamaRecord ++ c1Buf.drop 26) ∧
    gamaRecord.length = 16 ∧
    (c1Buf.take 26 ++ gamaRecord ++ c1Buf.drop 26).length = c1Buf.length + 16 ∧
    (16 : ℕ) ≠ 20 :=
  ⟨rfl, by decide, by decide, by decide⟩

/-- C1 amended: for every encoded stream containing the IHDR signature
at a positive offset `i`, the output is exactly the input bytes through
the end of the IHDR record (4-byte length, 4-byte type, 13 data bytes,
4-byte CRC), then the 16-byte gamma record — big-endian length 4, type
`"gAMA"`, big-endian value `round(100000/targetGamma)`, CRC-32 over
type and value — then every remaining input byte unchanged, in order. -/
theorem gammaMuxSplice_ok (buf : List ℕ) (i : ℕ)
    (hfind : bytesIndex buf ihdrSig = some i) (hpos : 0 < i) :
    gammaMuxSplice buf =
      .ok (buf.take (i + 13 + 4 + 4 + 4) ++
        ([0, 0, 0, 4] ++ gamaType ++
          be32 ((goRound ((100000 : ℚ) / targetGammaQ)).toNat) ++
          be32 (crc32 (gamaType ++
            be32 ((goRound ((100000 : ℚ) / targetGammaQ)).toNat)))) ++
        buf.drop (i + 13 + 4 + 4 + 4)) ∧
    gamaRecord.length = 16 := by
  have hne : i ≠ 0 := Nat.pos_iff_ne_zero.mp hpos
  constructor
  · simp [gammaMuxSplice, hfind, hne, gamaRecord, gamaValue]
  · decide

/-- Witness for `gammaMuxSplice_ok` at the concrete stream `c1Buf`,
where the signature sits at offset 1. -/
theorem gammaMuxSplice_ok_witness :
    (bytesIndex c1Buf ihdrSig = some 1 ∧ 0 < 1) ∧
    (gammaMuxSplice c1Buf =
      .ok (c1Buf.take (1 + 13 + 4 + 4 + 4) ++
        ([0, 0, 0, 4] ++ gamaType ++
          be32 ((goRound ((100000 : ℚ) / targetGammaQ)).toNat) ++
          be32 (crc32 (gamaType ++
            be32 ((goRound ((100000 : ℚ) / targetGammaQ)).toNat)))) ++
        c1Buf.drop (1 + 13 + 4 + 4 + 4)) ∧
    gamaRecord.length = 16) :=
  ⟨⟨by decide, by decide⟩, gammaMuxSplice_ok c1Buf 1 (by decide) (by decide)⟩

/-! ### Resampler geometry (`resize`, source lines 540–580) -/

/-- The geometry computed by `resize`: the new target bounds `(Dx, Dy)`
and the centering offsets `(xoffset, yoffset)`.  All quantities are Go
`int`s that are nonnegative here (the subtractions under the divisions
are shown nonnegative in `resize_fit_amended`), so they are modeled as
`ℕ`; Go integer division truncates, as `ℕ` division does. -/
def resizeDims (srcW srcH dstW dstH k : ℕ) (stretch : Bool) :
    (ℕ × ℕ) × (ℕ × ℕ) :=
  if stretch then
    ((dstW / k, dstH / k), (0, 0))
  else if srcW * dstH > dstW * srcH then
    -- source image is wider
    let nh := srcH * dstW / srcW / k
    ((dstW / k, nh), (0, (dstH - nh * k) / 2))
  else
    -- source image is narrower
    let nw := srcW * dstH / srcH / k
    ((nw, dstH / k), ((dstW - nw * k) / 2, 0))

/-- C7 counterexample: for a 100×60 source on a 100×100 canvas in fit
mode the code computes scaled bounds 50×30 with `yoffset = 20`
(`(dstH - nh*k)/2`), while the claim's offset formula
`floor((canvasAxis/k - scaledAxis)/2)` gives `(100/2 - 30)/2 = 10`. -/
theorem resize_offset_cex :
    resizeDims 100 60 100 100 2 false = ((50, 30), (0, 20)) ∧
    (100 / 2 - 30) / 2 = 10 ∧ (20 : ℕ) ≠ 10 := by decide

/-- C7 amended: in fit mode the wider/narrower decision is the integer
cross-multiplication `srcW*dstH > dstW*srcH`; the scaled bounds are
contained in `canvasBounds/k`; at least one axis exactly equals the
corresponding canvas axis divided by `k`; the centering offset equals
`floor((canvasAxis - k*scaledAxis)/2)` (full-resolution pixels, not the
claim's `floor((canvasAxis/k - scaledAxis)/2)`); and the two border
gaps on the non-matching axis differ by at most one pixel. -/
theorem resize_fit_amended (srcW srcH dstW dstH nw nh xo yo : ℕ)
    (hsw : 0 < srcW) (hsh : 0 < srcH)
    (h : resizeDims srcW srcH dstW dstH 2 false = ((nw, nh), (xo, yo))) :
    (srcW * dstH > dstW * srcH → nw = dstW / 2 ∧ xo = 0) ∧
    (¬ srcW * dstH > dstW * srcH → nh = dstH / 2 ∧ yo = 0) ∧
    nw ≤ dstW / 2 ∧ nh ≤ dstH / 2 ∧
    (nw = dstW / 2 ∨ nh = dstH / 2) ∧
    nw * 2 ≤ dstW ∧ nh * 2 ≤ dstH ∧
    xo = (dstW - nw * 2) / 2 ∧ yo = (dstH - nh * 2) / 2 ∧
    xo ≤ dstW - nw * 2 - xo ∧ dstW - nw * 2 - xo ≤ xo + 1 ∧
    yo ≤ dstH - nh * 2 - yo ∧ dstH - nh * 2 - yo ≤ yo + 1 := by
  by_cases hw : srcW * dstH > dstW * srcH
  · -- wider: Y is the scaled-down axis
    simp only [resizeDims, Bool.false_eq_true, if_false, if_pos hw, Prod.mk.injEq] at h
    obtain ⟨⟨e1, e2⟩, e3, e4⟩ := h
    subst e1; subst e2; subst e3; subst e4
    have hd : srcH * dstW < dstH * srcW := by
      calc srcH * dstW = dstW * srcH := mul_comm _ _
        _ < srcW * dstH := hw
        _ = dstH * srcW := mul_comm _ _
    have hq : srcH * dstW / srcW < dstH := (Nat.div_lt_iff_lt_mul hsw).mpr hd
    set a := srcH * dstW / srcW with ha
    exact ⟨fun _ => ⟨rfl, rfl⟩, fun hc => absurd hw hc, le_rfl, by omega,
      Or.inl rfl, by omega, by omega, by omega, by omega, by omega, by omega,
      by omega, by omega⟩
  · -- narrower (or equal): X is the scaled-down axis
    simp only [resizeDims, Bool.false_eq_true, if_false, if_neg hw, Prod.mk.injEq] at h
    obtain ⟨⟨e1, e2⟩, e3, e4⟩ := h
    subst e1; subst e2; subst e3; subst e4
    have hle : srcW * dstH ≤ dstW * srcH := Nat.not_lt.mp hw
    have hq : srcW * dstH / srcH ≤ dstW := by
      calc srcW * dstH / srcH ≤ dstW * srcH / srcH := Nat.div_le_div_right hle
        _ = dstW := Nat.mul_div_cancel _ hsh
    set a := srcW * dstH / srcH with ha
    exact ⟨fun hc => absurd hc hw, fun _ => ⟨rfl, rfl⟩, by omega, le_rfl,
      Or.inr rfl, by omega, by omega, by omega, by omega, by omega, by omega,
      by omega, by omega⟩

/-- Witness for `resize_fit_amended` at a concrete 100×60 source on a
100×100 canvas: the scaled bounds are 50×30, the y offset is 20, and
containment with the exact x axis holds. -/
theorem resize_fit_amended_witness :
    (0 : ℕ) < 100 ∧ (0 : ℕ) < 60 ∧
    resizeDims 100 60 100 100 2 false = ((50, 30), (0, 20)) ∧
    30 ≤ 100 / 2 ∧ (20 : ℕ) = (100 - 30 * 2) / 2 :=
  ⟨by decide, by decide, by decide,
    (resize_fit_amended 100 60 100 100 50 30 0 20 (by decide) (by decide)
      (by decide)).2.2.2.1,
    (resize_fit_amended 100 60 100 100 50 30 0 20 (by decide) (by decide)
      (by decide)).2.2.2.2.2.2.2.2.1⟩

/-! ### Quantizer (`calculateFullPixel`, source lines 582–659) -/

/-- A pending error entry (`dithererr`): signed per-channel error. -/
structure DitherErr where
  r : ℚ
  g : ℚ
  b : ℚ
deriving DecidableEq

/-- A fresh (all-zero) error entry, the contents of a newly `make`d
error row. -/
def DitherErr.zero : DitherErr := ⟨0, 0, 0⟩

/-- The two transcendental maps the quantizer uses —
`encode : x ↦ x^(1/targetGamma)` (`math.Pow(·, 1/targetGamma)`) and
`decode : x ↦ x^targetGamma` — abstracted as parameters: every claim
about the quantizer below holds for an arbitrary pair, so `math.Pow`
needs no axiomatization. -/
structure GammaOps where
  encode : ℚ → ℚ
  decode : ℚ → ℚ

/-- `scaleClamp` (source lines 586–591): clamp the encoded value above
by `1.0`, scale to the output range, round to nearest
(`math.Round(v * max)`). -/
def scaleClamp (v max : ℚ) : ℚ :=
  (goRound ((if v > 1 then 1 else v) * max) : ℚ)

/-- The closure `nonneg` (source lines 596–601): clamp below to
`low = 1.0/newMaxValue` where `newMaxValue = nrgbaMax`. -/
def nonneg (x : ℚ) : ℚ :=
  if x < 1 / (nrgbaMax : ℚ) then 1 / (nrgbaMax : ℚ) else x

/-- The three error-adjusted channel values of `calculateFullPixel`
(source lines 605–616): normalize the 16-bit sample to `[0,1]`, add the
pending error at this column (buffer index `srcx+1` under the source's
`+1` index offset), clamp below with `nonneg`.  These are exactly the
values `calculateFullPixel` feeds to the target-gamma re-encode. -/
def errorAdjusted (src : Pixel64) (srcx : ℕ) (errcurr : ℕ → DitherErr) :
    ℚ × ℚ × ℚ :=
  (nonneg ((src.r : ℚ) / nrgba64Max + (errcurr (srcx + 1)).r),
   nonneg ((src.g : ℚ) / nrgba64Max + (errcurr (srcx + 1)).g),
   nonneg ((src.b : ℚ) / nrgba64Max + (errcurr (srcx + 1)).b))

/-- Go `uint8` conversion of a nonnegative integer-valued float:
truncation. -/
def toUint8 (x : ℚ) : ℕ := (⌊x⌋).toNat

/-- `calculateFullPixel` (source lines 593–659): emit the re-encoded
8-bit pixel and, when dithering, distribute the residual into the two
error rows (modeled as total maps from buffer index — the source's
`W+2`-slot slices make exactly the indices used here addressable).
The alpha channel passes through, rescaled (`srcnrgba.A >> 8`). -/
def calculateFullPixel (ops : GammaOps) (srcx : ℕ) (src : Pixel64)
    (dither : Bool) (errcurr errnext : ℕ → DitherErr) :
    Pixel8 × (ℕ → DitherErr) × (ℕ → DitherErr) :=
  let e := errorAdjusted src srcx errcurr
  let roundred := scaleClamp (ops.encode e.1) nrgbaMax
  let roundgreen := scaleClamp (ops.encode e.2.1) nrgbaMax
  let roundblue := scaleClamp (ops.encode e.2.2) nrgbaMax
  let out : Pixel8 :=
    ⟨toUint8 roundred, toUint8 roundgreen, toUint8 roundblue, src.a / 256⟩
  if dither then
    -- undo the gamma transform once more to make the error linear
    let diffred := e.1 - ops.decode (roundred / nrgbaMax)
    let diffgreen := e.2.1 - ops.decode (roundgreen / nrgbaMax)
    let diffblue := e.2.2 - ops.decode (roundblue / nrgbaMax)
    let ec1 := fun i => if i = srcx + 2 then
        DitherErr.mk ((errcurr i).r + diffred * 7 / 16)
          ((errcurr i).g + diffgreen * 7 / 16)
          ((errcurr i).b + diffblue * 7 / 16)
      else errcurr i
    let en1 := fun i => if i = srcx then
        DitherErr.mk ((errnext i).r + diffred * 3 / 16)
          ((errnext i).g + diffgreen * 3 / 16)
          ((errnext i).b + diffblue * 3 / 16)
      else errnext i
    let en2 := fun i => if i = srcx + 1 then
        DitherErr.mk ((en1 i).r + diffred * 5 / 16)
          ((en1 i).g + diffgreen * 5 / 16)
          ((en1 i).b + diffblue * 5 / 16)
      else en1 i
    let en3 := fun i => if i = srcx + 2 then
        DitherErr.mk ((en2 i).r + diffred * 1 / 16)
          ((en2 i).g + diffgreen * 1 / 16)
          ((en2 i).b + diffblue * 1 / 16)
      else en2 i
    (out, ec1, en3)
  else
    (out, errcurr, errnext)

/-- C3: for every input pixel, every column, and every contents of the
current error row — hence at every step of the row-major traversal,
with or without dithering, including arbitrarily long runs of fully
black reveal pixels — each error-adjusted channel value that
`calculateFullPixel` feeds to the target-gamma re-encode is at least
`1/nrgbaMax`: never zero or negative. -/
theorem errorAdjusted_floor (src : Pixel64) (srcx : ℕ)
    (errcurr : ℕ → DitherErr) :
    1 / (nrgbaMax : ℚ) ≤ (errorAdjusted src srcx errcurr).1 ∧
    1 / (nrgbaMax : ℚ) ≤ (errorAdjusted src srcx errcurr).2.1 ∧
    1 / (nrgbaMax : ℚ) ≤ (errorAdjusted src srcx errcurr).2.2 := by
  refine ⟨?_, ?_, ?_⟩ <;>
  · dsimp only [errorAdjusted, nonneg]
    split
    · exact le_refl _
    · next h => exact le_of_not_lt h

/-- C4: with dithering enabled, `calculateFullPixel` adds exactly
`residual * 7/16` at buffer index `srcx+2` of the current row (column
`x+1` under the `+1` index offset), and `residual * 3/16` at index
`srcx` (column `x-1`), `residual * 5/16` at index `srcx+1` (column
`x`), `residual * 1/16` at index `srcx+2` (column `x+1`) of the next
row, per channel, where
`residual = clamped - decode(rounded/max)`; no other entry changes. -/
theorem calculateFullPixel_dither (ops : GammaOps) (srcx : ℕ)
    (src : Pixel64) (errcurr errnext : ℕ → DitherErr) (i : ℕ) :
    ((calculateFullPixel ops srcx src true errcurr errnext).2.1 i).r =
      (errcurr i).r + (if i = srcx + 2 then
        ((errorAdjusted src srcx errcurr).1 -
          ops.decode (scaleClamp (ops.encode (errorAdjusted src srcx errcurr).1)
            nrgbaMax / nrgbaMax)) * 7 / 16 else 0) ∧
    ((calculateFullPixel ops srcx src true errcurr errnext).2.1 i).g =
      (errcurr i).g + (if i = srcx + 2 then
        ((errorAdjusted src srcx errcurr).2.1 -
          ops.decode (scaleClamp (ops.encode (errorAdjusted src srcx errcurr).2.1)
            nrgbaMax / nrgbaMax)) * 7 / 16 else 0) ∧
    ((calculateFullPixel ops srcx src true errcurr errnext).2.1 i).b =
      (errcurr i).b + (if i = srcx + 2 then
        ((errorAdjusted src srcx errcurr).2.2 -
          ops.decode (scaleClamp (ops.encode (errorAdjusted src srcx errcurr).2.2)
            nrgbaMax / nrgbaMax)) * 7 / 16 else 0) ∧
    ((calculateFullPixel ops srcx src true errcurr errnext).2.2 i).r =
      (errnext i).r +
        (if i = srcx then
          ((errorAdjusted src srcx errcurr).1 -
            ops.decode (scaleClamp (ops.encode (errorAdjusted src srcx errcurr).1)
              nrgbaMax / nrgbaMax)) * 3 / 16 else 0) +
        (if i = srcx + 1 then
          ((errorAdjusted src srcx errcurr).1 -
            ops.decode (scaleClamp (ops.encode (errorAdjusted src srcx errcurr).1)
              nrgbaMax / nrgbaMax)) * 5 / 16 else 0) +
        (if i = srcx + 2 then
          ((errorAdjusted src srcx errcurr).1 -
            ops.decode (scaleClamp (ops.encode (errorAdjusted src srcx errcurr).1)
              nrgbaMax / nrgbaMax)) * 1 / 16 else 0) ∧
    ((calculateFullPixel ops srcx src true errcurr errnext).2.2 i).g =
      (errnext i).g +
        (if i = srcx then
          ((errorAdjusted src srcx errcurr).2.1 -
            ops.decode (scaleClamp (ops.encode (errorAdjusted src srcx errcurr).2.1)
              nrgbaMax / nrgbaMax)) * 3 / 16 else 0) +
        (if i = srcx + 1 then
          ((errorAdjusted src srcx errcurr).2.1 -
            ops.decode (scaleClamp (ops.encode (errorAdjusted src srcx errcurr).2.1)
              nrgbaMax / nrgbaMax)) * 5 / 16 else 0) +
        (if i = srcx + 2 then
          ((errorAdjusted src srcx errcurr).2.1 -
            ops.decode (scaleClamp (ops.encode (errorAdjusted src srcx errcurr).2.1)
              nrgbaMax / nrgbaMax)) * 1 / 16 else 0) ∧
    ((calculateFullPixel ops srcx src true errcurr errnext).2.2 i).b =
      (errnext i).b +
        (if i = srcx then
          ((errorAdjusted src srcx errcurr).2.2 -
            ops.decode (scaleClamp (ops.encode (errorAdjusted src srcx errcurr).2.2)
              nrgbaMax / nrgbaMax)) * 3 / 16 else 0) +
        (if i = srcx + 1 then
          ((errorAdjusted src srcx errcurr).2.2 -
            ops.decode (scaleClamp (ops.encode (errorAdjusted src srcx errcurr).2.2)
              nrgbaMax / nrgbaMax)) * 5 / 16 else 0) +
        (if i = srcx + 2 then
          ((errorAdjusted src srcx errcurr).2.2 -
            ops.decode (scaleClamp (ops.encode (errorAdjusted src srcx errcurr).2.2)
              nrgbaMax / nrgbaMax)) * 1 / 16 else 0) := by
  refine ⟨?_, ?_, ?_, ?_, ?_, ?_⟩ <;>
  · simp only [calculateFullPixel, if_true]
    by_cases e0 : i = srcx <;> by_cases e1 : i = srcx + 1 <;>
      by_cases e2 : i = srcx + 2 <;>
      simp only [e0, e1, e2, if_pos, if_neg, if_true, if_false] <;>
      first
        | omega
        | simp_all

/-! ### VeilDarkener constant (`thumbnailDarkenFactor`, source line 433) -/

/-- The largest `float64` strictly below `0.5`:
`math.Nextafter(0.5, 0) = 1/2 - 2^-54`. -/
noncomputable def ulpBelowHalf : ℝ := 1 / 2 - 1 / 2 ^ 54

/-- `sourceGamma` over `ℝ`. -/
noncomputable def sourceGammaR : ℝ := 22 / 10

/-- `targetGamma = sourceGamma * 20` over `ℝ`. -/
noncomputable def targetGammaR : ℝ := sourceGammaR * 20

/-- The program constant (source line 433):
`thumbnailDarkenFactor = math.Pow(math.Nextafter(0.5, 0)/nrgbaMax, sourceGamma/targetGamma)`,
modeled exactly with the real power function. -/
noncomputable def thumbnailDarkenFactor : ℝ :=
  (ulpBelowHalf / (nrgbaMax : ℝ)) ^ (sourceGammaR / targetGammaR)

theorem sourceGamma_div_targetGamma : sourceGammaR / targetGammaR = 1 / 20 := by
  unfold targetGammaR sourceGammaR
  norm_num

theorem ulpBelowHalf_base_pos : (0 : ℝ) < ulpBelowHalf / (nrgbaMax : ℝ) := by
  unfold ulpBelowHalf nrgbaMax
  norm_num

theorem ulpBelowHalf_base_lt_one : ulpBelowHalf / (nrgbaMax : ℝ) < 1 := by
  unfold ulpBelowHalf nrgbaMax
  norm_num

/-- Raising `thumbnailDarkenFactor` to the 20th power recovers the base
`ulpBelowHalf / nrgbaMax`. -/
theorem thumbnailDarkenFactor_pow20 :
    thumbnailDarkenFactor ^ ((20 : ℕ) : ℝ) = ulpBelowHalf / (nrgbaMax : ℝ) := by
  unfold thumbnailDarkenFactor
  rw [sourceGamma_div_targetGamma, ← Real.rpow_mul ulpBelowHalf_base_pos.le]
  norm_num

theorem thumbnailDarkenFactor_eq :
    thumbnailDarkenFactor = (ulpBelowHalf / (nrgbaMax : ℝ)) ^ ((1 : ℝ) / 20) := by
  unfold thumbnailDarkenFactor
  rw [sourceGamma_div_targetGamma]

/-- Compare a nonnegative real with a 20th root from below: if
`a ^ 20 < b` then `a < b ^ (1/20)`. -/
theorem lt_rpow_inv20 (a b : ℝ) (ha : 0 ≤ a) (h : a ^ (20 : ℕ) < b) :
    a < b ^ ((1 : ℝ) / 20) := by
  have h1 : ((a ^ (20 : ℕ) : ℝ)) ^ ((1 : ℝ) / 20) < b ^ ((1 : ℝ) / 20) :=
    Real.rpow_lt_rpow (by positivity) h (by norm_num)
  calc a = a ^ ((20 : ℝ) * (1 / 20)) := by norm_num
    _ = (a ^ (20 : ℝ)) ^ ((1 : ℝ) / 20) := Real.rpow_mul ha _ _
    _ = (a ^ (20 : ℕ)) ^ ((1 : ℝ) / 20) := by
        rw [show ((20 : ℝ)) = ((20 : ℕ) : ℝ) by norm_num, Real.rpow_natCast]
    _ < b ^ ((1 : ℝ) / 20) := h1

/-- Compare a nonnegative real with a 20th root from above: if
`b < a ^ 20` then `b ^ (1/20) < a`. -/
theorem rpow_inv20_lt (a b : ℝ) (ha : 0 ≤ a) (hb : 0 ≤ b)
    (h : b < a ^ (20 : ℕ)) : b ^ ((1 : ℝ) / 20) < a := by
  have h1 : b ^ ((1 : ℝ) / 20) < ((a ^ (20 : ℕ) : ℝ)) ^ ((1 : ℝ) / 20) :=
    Real.rpow_lt_rpow hb h (by norm_num)
  calc b ^ ((1 : ℝ) / 20) < (a ^ (20 : ℕ)) ^ ((1 : ℝ) / 20) := h1
    _ = (a ^ (20 : ℝ)) ^ ((1 : ℝ) / 20) := by
        rw [show ((20 : ℝ)) = ((20 : ℕ) : ℝ) by norm_num, Real.rpow_natCast]
    _ = a ^ ((20 : ℝ) * (1 / 20)) := (Real.rpow_mul ha _ _).symm
    _ = a := by norm_num

/-- Certified integer bracketing of the transcendental constant:
`47797 < thumbnailDarkenFactor * 65280 < 47798` (exact rational check
of the 20th powers of the bracketing rationals against the base). -/
theorem thumbnailDarkenFactor_bracket :
    (47797 : ℝ) < thumbnailDarkenFactor * 65280 ∧
    thumbnailDarkenFactor * 65280 < 47798 := by
  constructor
  · rw [← div_lt_iff₀ (by norm_num : (0 : ℝ) < 65280), thumbnailDarkenFactor_eq]
    apply lt_rpow_inv20 _ _ (by norm_num)
    unfold ulpBelowHalf nrgbaMax
    norm_num
  · rw [← lt_div_iff₀ (by norm_num : (0 : ℝ) < 65280), thumbnailDarkenFactor_eq]
    apply rpow_inv20_lt _ _ (by norm_num) ulpBelowHalf_base_pos.le
    unfold ulpBelowHalf nrgbaMax
    norm_num

/-- `uint8(thumbnailDarkenFactor * nrgbaMax)` is `186`. -/
theorem floor_thumbnailDarkenFactor_255 :
    ⌊thumbnailDarkenFactor * (nrgbaMax : ℝ)⌋ = 186 := by
  obtain ⟨h1, h2⟩ := thumbnailDarkenFactor_bracket
  have he : thumbnailDarkenFactor * (nrgbaMax : ℝ)
      = thumbnailDarkenFactor * 65280 / 256 := by
    unfold nrgbaMax
    push_cast
    ring
  rw [he, Int.floor_eq_iff]
  constructor <;> push_cast <;> linarith

/-- The clamp comparison `round(val)/256 > thumbnailDarkenFactor * 255`
holds exactly when the rounded integer exceeds `47797`. -/
theorem clampround_threshold (r : ℤ) :
    thumbnailDarkenFactor * (nrgbaMax : ℝ) < (r : ℝ) / 256 ↔ 47797 < r := by
  obtain ⟨h1, h2⟩ := thumbnailDarkenFactor_bracket
  have he : thumbnailDarkenFactor * (nrgbaMax : ℝ)
      = thumbnailDarkenFactor * 65280 / 256 := by
    unfold nrgbaMax
    push_cast
    ring
  rw [he]
  constructor
  · intro h
    have : (47797 : ℝ) < r := by linarith
    exact_mod_cast this
  · intro h
    have : (47798 : ℝ) ≤ r := by exact_mod_cast h
    linarith

/-! ### HaloCompensator (`removeHalo`, source lines 714–758) -/

/-- The closure `clampround` inside `removeHalo` (source lines 717–725):
`v := math.Round(val)/256`; clamp above at `thumbnailDarkenFactor*nrgbaMax`
(emitting `uint8(thumbnailDarkenFactor*nrgbaMax)`), clamp below at `0`,
otherwise truncate to `uint8`.  The comparison against the
transcendental ceiling and the ceiling's `uint8` image are realized by
the certified constants `47797` and `186`; `clampround_eq_clamproundR`
proves this equal to the direct transliteration `clamproundR`. -/
def clampround (val : ℚ) : ℕ :=
  if 47797 < goRound val then 186
  else if goRound val < 0 then 0
  else (goRound val).toNat / 256

/-- `clampround` transliterated over `ℝ` with the transcendental
ceiling, exactly as the source writes it. -/
noncomputable def clamproundR (val : ℚ) : ℕ :=
  if thumbnailDarkenFactor * (nrgbaMax : ℝ) < ((goRound val : ℤ) : ℝ) / 256 then
    (⌊thumbnailDarkenFactor * (nrgbaMax : ℝ)⌋).toNat
  else if ((goRound val : ℤ) : ℝ) / 256 < 0 then 0
  else (⌊((goRound val : ℤ) : ℝ) / 256⌋).toNat

theorem clampround_eq_clamproundR (val : ℚ) :
    clampround val = clamproundR val := by
  unfold clampround clamproundR
  set r := goRound val with hr
  by_cases h1 : 47797 < r
  · rw [if_pos ((clampround_threshold r).mpr h1), if_pos h1,
      floor_thumbnailDarkenFactor_255]
    rfl
  · rw [if_neg (fun hc => h1 ((clampround_threshold r).mp hc)), if_neg h1]
    by_cases h2 : r < 0
    · rw [if_pos h2,
        if_pos (div_neg_of_neg_of_pos (by exact_mod_cast h2) (by norm_num))]
    · have h0 : (0 : ℤ) ≤ r := not_lt.mp h2
      rw [if_neg h2,
        if_neg (not_lt.mpr (div_nonneg (by exact_mod_cast h0) (by norm_num)))]
      rw [show ((r : ℝ)) = ((r.toNat : ℕ) : ℝ) from
          by exact_mod_cast (Int.toNat_of_nonneg h0).symm,
        show ((256 : ℝ)) = ((256 : ℕ) : ℝ) by norm_num,
        Int.floor_toNat, Nat.floor_div_eq_div]

/-- The per-channel halo correction factor (source lines 727–736):
`(denom + thumb - full) / denom` with `denom` the sum of the three raw
veil samples.  Total `ℚ` division; `removeHalo` only evaluates it under
a nonzero denominator. -/
def haloFactor (e s se thumbc fullc : ℕ) : ℚ :=
  (((e : ℚ) + s + se) + thumbc - fullc) / ((e : ℚ) + s + se)

/-- `removeHalo` (source lines 714–758): correct the three raw darkened
veil samples of a supercell so a naive 2×2 arithmetic mean reproduces
the veil.  The source divides by the per-channel sum of the three raw
samples unconditionally; under IEEE semantics a zero sum makes the
factor non-finite (±Inf, and NaN downstream), which the model expresses
by returning `none` in that case.  Alpha is copied (`>> 8`) from the
corresponding raw sample. -/
def removeHalo (full thumb thumbeast thumbsouth thumbsoutheast : Pixel64) :
    Option (Pixel8 × Pixel8 × Pixel8) :=
  if ((thumbeast.r : ℚ) + thumbsouth.r + thumbsoutheast.r = 0) ∨
     ((thumbeast.g : ℚ) + thumbsouth.g + thumbsoutheast.g = 0) ∨
     ((thumbeast.b : ℚ) + thumbsouth.b + thumbsoutheast.b = 0) then
    none
  else
    let rfactor := haloFactor thumbeast.r thumbsouth.r thumbsoutheast.r thumb.r full.r
    let gfactor := haloFactor thumbeast.g thumbsouth.g thumbsoutheast.g thumb.g full.g
    let bfactor := haloFactor thumbeast.b thumbsouth.b thumbsoutheast.b thumb.b full.b
    some
      (⟨clampround (thumbeast.r * rfactor), clampround (thumbeast.g * gfactor),
         clampround (thumbeast.b * bfactor), thumbeast.a / 256⟩,
       ⟨clampround (thumbsouth.r * rfactor), clampround (thumbsouth.g * gfactor),
         clampround (thumbsouth.b * bfactor), thumbsouth.a / 256⟩,
       ⟨clampround (thumbsoutheast.r * rfactor), clampround (thumbsoutheast.g * gfactor),
         clampround (thumbsoutheast.b * bfactor), thumbsoutheast.a / 256⟩)

/-- C6: when the three raw veil samples of a channel are all zero the
denominator `sum(3 raw veils)` is zero, yet the source divides by it
unconditionally — there is no `factor = 1` guard — so the factor is not
a finite number (IEEE `(0 + 256 - 0)/0 = +Inf`, `0 * +Inf = NaN`, and
the subsequent `uint8` conversion of NaN is platform-dependent).  At
this concrete failing input the computation leaves the finite domain. -/
theorem removeHalo_zero_denominator :
    removeHalo ⟨0, 0, 0, 65535⟩ ⟨256, 256, 256, 65535⟩
      ⟨0, 0, 0, 65535⟩ ⟨0, 0, 0, 65535⟩ ⟨0, 0, 0, 65535⟩ = none := by
  simp [removeHalo]

/-- C2 counterexample: a supercell whose veil value at the reveal
position is black (`thumb = 0`, 8-bit code 0) while the three raw veil
samples are `25600` (8-bit code 100) and the reveal sample is black.
The correction factor is `(76800 + 0 - 0)/76800 = 1`, the corrected
samples stay at code 100, and the viewer mean `(0+100+100+100)/4 = 75`
differs from the original darkened veil value at the supercell's
position (code 0) by far more than 1 output code. -/
theorem removeHalo_mean_cex :
    removeHalo (pixel8To64 ⟨0, 0, 0, 255⟩) ⟨0, 0, 0, 65535⟩
      ⟨25600, 25600, 25600, 65535⟩ ⟨25600, 25600, 25600, 65535⟩
      ⟨25600, 25600, 25600, 65535⟩ =
      some (⟨100, 100, 100, 255⟩, ⟨100, 100, 100, 255⟩,
        ⟨100, 100, 100, 255⟩) ∧
    ¬ |((0 : ℚ) + 100 + 100 + 100) / 4 - ((0 : ℕ) / 256 : ℕ)| ≤ 1 := by
  constructor
  · have hf : haloFactor 25600 25600 25600 0 0 = 1 := by
      unfold haloFactor
      norm_num
    have hround : goRound (25600 : ℚ) = 25600 := by
      unfold goRound
      rw [if_pos (by norm_num)]
      exact Int.floor_eq_iff.mpr (by norm_num)
    have hc : clampround (25600 : ℚ) = 100 := by
      unfold clampround
      rw [hround]
      decide
    simp only [removeHalo, pixel8To64]
    norm_num [hf, hc]
  · norm_num

/-- `goRound` is within one half of its argument. -/
theorem goRound_bounds (x : ℚ) :
    x - 1 / 2 ≤ (goRound x : ℚ) ∧ (goRound x : ℚ) ≤ x + 1 / 2 := by
  unfold goRound
  split
  · constructor
    · have h := Int.lt_floor_add_one (x + 1 / 2)
      linarith
    · have h := Int.floor_le (x + 1 / 2)
      linarith
  · constructor
    · have h := Int.floor_le (-x + 1 / 2)
      push_cast
      linarith
    · have h := Int.lt_floor_add_one (-x + 1 / 2)
      push_cast
      linarith

/-- `goRound` fixes natural numbers. -/
theorem goRound_natCast (n : ℕ) : goRound (n : ℚ) = n := by
  unfold goRound
  rw [if_pos (by positivity)]
  refine Int.floor_eq_iff.mpr ⟨?_, ?_⟩ <;> push_cast <;> linarith

/-- Division by 256 with remainder, cast to `ℚ`. -/
theorem natDiv256_bounds (n : ℕ) :
    ((n / 256 : ℕ) : ℚ) * 256 ≤ (n : ℚ) ∧
    (n : ℚ) ≤ ((n / 256 : ℕ) : ℚ) * 256 + 255 := by
  refine ⟨?_, ?_⟩
  · exact_mod_cast Nat.div_mul_le_self n 256
  · have h : n ≤ n / 256 * 256 + 255 := by omega
    exact_mod_cast h

/-- The rounded value escapes both clamps of `clampround`. -/
def inClampRange (r : ℤ) : Prop := 0 ≤ r ∧ r ≤ 47797

instance (r : ℤ) : Decidable (inClampRange r) :=
  decidable_of_iff (0 ≤ r ∧ r ≤ 47797) Iff.rfl

theorem clampround_of_inRange (val : ℚ) (h : inClampRange (goRound val)) :
    clampround val = (goRound val).toNat / 256 := by
  obtain ⟨h0, h1⟩ := h
  unfold clampround
  rw [if_neg (by omega), if_neg (by omega)]

/-- Per-channel core of the amended halo invariant: with a nonzero
denominator and the three rounded corrected values inside the clamp
range, the viewer's 2×2 sum (reveal code plus three corrected codes)
differs from the sum of the four original 8-bit veil codes by strictly
less than 4 — i.e. the means differ by less than one output code. -/
theorem halo_channel_bound (F8 T E S SE : ℕ) (hf : F8 ≤ 255)
    (hd : (E : ℚ) + S + SE ≠ 0)
    (h1 : inClampRange (goRound ((E : ℚ) * haloFactor E S SE T (257 * F8))))
    (h2 : inClampRange (goRound ((S : ℚ) * haloFactor E S SE T (257 * F8))))
    (h3 : inClampRange (goRound ((SE : ℚ) * haloFactor E S SE T (257 * F8)))) :
    |((F8 : ℚ)
        + (((goRound ((E : ℚ) * haloFactor E S SE T (257 * F8))).toNat / 256 : ℕ) : ℚ)
        + (((goRound ((S : ℚ) * haloFactor E S SE T (257 * F8))).toNat / 256 : ℕ) : ℚ)
        + (((goRound ((SE : ℚ) * haloFactor E S SE T (257 * F8))).toNat / 256 : ℕ) : ℚ))
      - ((T / 256 : ℕ) : ℚ) - ((E / 256 : ℕ) : ℚ) - ((S / 256 : ℕ) : ℚ)
      - ((SE / 256 : ℕ) : ℚ)| < 4 := by
  have hsum : (E : ℚ) * haloFactor E S SE T (257 * F8)
      + (S : ℚ) * haloFactor E S SE T (257 * F8)
      + (SE : ℚ) * haloFactor E S SE T (257 * F8)
      = ((E : ℚ) + S + SE) + T - 257 * F8 := by
    unfold haloFactor
    field_simp
    ring
  obtain ⟨b1l, b1r⟩ := goRound_bounds ((E : ℚ) * haloFactor E S SE T (257 * F8))
  obtain ⟨b2l, b2r⟩ := goRound_bounds ((S : ℚ) * haloFactor E S SE T (257 * F8))
  obtain ⟨b3l, b3r⟩ := goRound_bounds ((SE : ℚ) * haloFactor E S SE T (257 * F8))
  have t1 : (((goRound ((E : ℚ) * haloFactor E S SE T (257 * F8))).toNat : ℕ) : ℚ)
      = ((goRound ((E : ℚ) * haloFactor E S SE T (257 * F8)) : ℤ) : ℚ) := by
    exact_mod_cast congrArg (fun z : ℤ => (z : ℚ)) (Int.toNat_of_nonneg h1.1)
  have t2 : (((goRound ((S : ℚ) * haloFactor E S SE T (257 * F8))).toNat : ℕ) : ℚ)
      = ((goRound ((S : ℚ) * haloFactor E S SE T (257 * F8)) : ℤ) : ℚ) := by
    exact_mod_cast congrArg (fun z : ℤ => (z : ℚ)) (Int.toNat_of_nonneg h2.1)
  have t3 : (((goRound ((SE : ℚ) * haloFactor E S SE T (257 * F8))).toNat : ℕ) : ℚ)
      = ((goRound ((SE : ℚ) * haloFactor E S SE T (257 * F8)) : ℤ) : ℚ) := by
    exact_mod_cast congrArg (fun z : ℤ => (z : ℚ)) (Int.toNat_of_nonneg h3.1)
  obtain ⟨d1l, d1r⟩ :=
    natDiv256_bounds (goRound ((E : ℚ) * haloFactor E S SE T (257 * F8))).toNat
  obtain ⟨d2l, d2r⟩ :=
    natDiv256_bounds (goRound ((S : ℚ) * haloFactor E S SE T (257 * F8))).toNat
  obtain ⟨d3l, d3r⟩ :=
    natDiv256_bounds (goRound ((SE : ℚ) * haloFactor E S SE T (257 * F8))).toNat
  obtain ⟨qTl, qTr⟩ := natDiv256_bounds T
  obtain ⟨qEl, qEr⟩ := natDiv256_bounds E
  obtain ⟨qSl, qSr⟩ := natDiv256_bounds S
  obtain ⟨qSEl, qSEr⟩ := natDiv256_bounds SE
  rw [t1] at d1l d1r
  rw [t2] at d2l d2r
  rw [t3] at d3l d3r
  have hf' : (F8 : ℚ) ≤ 255 := by exact_mod_cast hf
  rw [abs_lt]
  constructor <;> linarith

/-- C2 amended: for every supercell whose per-channel veil sums are
nonzero and whose corrected values stay inside the clamp range, the
arithmetic mean of the three halo-corrected veil codes and the reveal
code equals the mean of the **four original darkened veil codes of the
supercell** (not the single veil value at the reveal position, as the
claim states) to within one output code — stated here multiplied by 4:
the sums differ by strictly less than 4. -/
theorem removeHalo_mean_amended (f8 : Pixel8) (thumb te ts tse : Pixel64)
    (hfr : f8.r ≤ 255) (hfg : f8.g ≤ 255) (hfb : f8.b ≤ 255)
    (hdr : (te.r : ℚ) + ts.r + tse.r ≠ 0)
    (hdg : (te.g : ℚ) + ts.g + tse.g ≠ 0)
    (hdb : (te.b : ℚ) + ts.b + tse.b ≠ 0)
    (h1r : inClampRange (goRound ((te.r : ℚ) *
      haloFactor te.r ts.r tse.r thumb.r (257 * f8.r))))
    (h2r : inClampRange (goRound ((ts.r : ℚ) *
      haloFactor te.r ts.r tse.r thumb.r (257 * f8.r))))
    (h3r : inClampRange (goRound ((tse.r : ℚ) *
      haloFactor te.r ts.r tse.r thumb.r (257 * f8.r))))
    (h1g : inClampRange (goRound ((te.g : ℚ) *
      haloFactor te.g ts.g tse.g thumb.g (257 * f8.g))))
    (h2g : inClampRange (goRound ((ts.g : ℚ) *
      haloFactor te.g ts.g tse.g thumb.g (257 * f8.g))))
    (h3g : inClampRange (goRound ((tse.g : ℚ) *
      haloFactor te.g ts.g tse.g thumb.g (257 * f8.g))))
    (h1b : inClampRange (goRound ((te.b : ℚ) *
      haloFactor te.b ts.b tse.b thumb.b (257 * f8.b))))
    (h2b : inClampRange (goRound ((ts.b : ℚ) *
      haloFactor te.b ts.b tse.b thumb.b (257 * f8.b))))
    (h3b : inClampRange (goRound ((tse.b : ℚ) *
      haloFactor te.b ts.b tse.b thumb.b (257 * f8.b)))) :
    ∃ c1 c2 c3 : Pixel8,
      removeHalo (pixel8To64 f8) thumb te ts tse = some (c1, c2, c3) ∧
      |((f8.r : ℚ) + c1.r + c2.r + c3.r)
        - ((thumb.r / 256 : ℕ) : ℚ) - ((te.r / 256 : ℕ) : ℚ)
        - ((ts.r / 256 : ℕ) : ℚ) - ((tse.r / 256 : ℕ) : ℚ)| < 4 ∧
      |((f8.g : ℚ) + c1.g + c2.g + c3.g)
        - ((thumb.g / 256 : ℕ) : ℚ) - ((te.g / 256 : ℕ) : ℚ)
        - ((ts.g / 256 : ℕ) : ℚ) - ((tse.g / 256 : ℕ) : ℚ)| < 4 ∧
      |((f8.b : ℚ) + c1.b + c2.b + c3.b)
        - ((thumb.b / 256 : ℕ) : ℚ) - ((te.b / 256 : ℕ) : ℚ)
        - ((ts.b / 256 : ℕ) : ℚ) - ((tse.b / 256 : ℕ) : ℚ)| < 4 := by
  refine ⟨⟨clampround ((te.r : ℚ) * haloFactor te.r ts.r tse.r thumb.r (257 * f8.r)),
      clampround ((te.g : ℚ) * haloFactor te.g ts.g tse.g thumb.g (257 * f8.g)),
      clampround ((te.b : ℚ) * haloFactor te.b ts.b tse.b thumb.b (257 * f8.b)),
      te.a / 256⟩,
    ⟨clampround ((ts.r : ℚ) * haloFactor te.r ts.r tse.r thumb.r (257 * f8.r)),
      clampround ((ts.g : ℚ) * haloFactor te.g ts.g tse.g thumb.g (257 * f8.g)),
      clampround ((ts.b : ℚ) * haloFactor te.b ts.b tse.b thumb.b (257 * f8.b)),
      ts.a / 256⟩,
    ⟨clampround ((tse.r : ℚ) * haloFactor te.r ts.r tse.r thumb.r (257 * f8.r)),
      clampround ((tse.g : ℚ) * haloFactor te.g ts.g tse.g thumb.g (257 * f8.g)),
      clampround ((tse.b : ℚ) * haloFactor te.b ts.b tse.b thumb.b (257 * f8.b)),
      tse.a / 256⟩, ?_, ?_, ?_, ?_⟩
  · unfold removeHalo
    rw [if_neg (by push_neg; exact ⟨hdr, hdg, hdb⟩)]
    rfl
  · rw [clampround_of_inRange _ h1r, clampround_of_inRange _ h2r,
      clampround_of_inRange _ h3r]
    exact halo_channel_bound f8.r thumb.r te.r ts.r tse.r hfr hdr h1r h2r h3r
  · rw [clampround_of_inRange _ h1g, clampround_of_inRange _ h2g,
      clampround_of_inRange _ h3g]
    exact halo_channel_bound f8.g thumb.g te.g ts.g tse.g hfg hdg h1g h2g h3g
  · rw [clampround_of_inRange _ h1b, clampround_of_inRange _ h2b,
      clampround_of_inRange _ h3b]
    exact halo_channel_bound f8.b thumb.b te.b ts.b tse.b hfb hdb h1b h2b h3b

theorem halo_witness_round :
    goRound ((25600 : ℚ) * haloFactor 25600 25600 25600 0 (257 * 0)) = 25600 := by
  have h : (25600 : ℚ) * haloFactor 25600 25600 25600 0 (257 * 0)
      = ((25600 : ℕ) : ℚ) := by
    unfold haloFactor
    norm_num
  rw [h, goRound_natCast]
  norm_num

/-- Witness for `removeHalo_mean_amended` at the concrete supercell of
`removeHalo_mean_cex`: black reveal and veil anchor, three raw veil
samples of 25600. -/
theorem removeHalo_mean_amended_witness :
    ((0 : ℕ) ≤ 255 ∧ ((25600 : ℕ) : ℚ) + 25600 + 25600 ≠ 0 ∧
      inClampRange (goRound ((25600 : ℚ) *
        haloFactor 25600 25600 25600 0 (257 * 0)))) ∧
    (∃ c1 c2 c3 : Pixel8,
      removeHalo (pixel8To64 ⟨0, 0, 0, 255⟩) ⟨0, 0, 0, 65535⟩
        ⟨25600, 25600, 25600, 65535⟩ ⟨25600, 25600, 25600, 65535⟩
        ⟨25600, 25600, 25600, 65535⟩ = some (c1, c2, c3) ∧
      |(((0 : ℕ) : ℚ) + c1.r + c2.r + c3.r)
        - (((0 : ℕ) / 256 : ℕ) : ℚ) - (((25600 : ℕ) / 256 : ℕ) : ℚ)
        - (((25600 : ℕ) / 256 : ℕ) : ℚ) - (((25600 : ℕ) / 256 : ℕ) : ℚ)| < 4 ∧
      |(((0 : ℕ) : ℚ) + c1.g + c2.g + c3.g)
        - (((0 : ℕ) / 256 : ℕ) : ℚ) - (((25600 : ℕ) / 256 : ℕ) : ℚ)
        - (((25600 : ℕ) / 256 : ℕ) : ℚ) - (((25600 : ℕ) / 256 : ℕ) : ℚ)| < 4 ∧
      |(((0 : ℕ) : ℚ) + c1.b + c2.b + c3.b)
        - (((0 : ℕ) / 256 : ℕ) : ℚ) - (((25600 : ℕ) / 256 : ℕ) : ℚ)
        - (((25600 : ℕ) / 256 : ℕ) : ℚ) - (((25600 : ℕ) / 256 : ℕ) : ℚ)| < 4) :=
  ⟨⟨by decide, by norm_num,
      by rw [halo_witness_round]; decide⟩,
    removeHalo_mean_amended ⟨0, 0, 0, 255⟩ ⟨0, 0, 0, 65535⟩
      ⟨25600, 25600, 25600, 65535⟩ ⟨25600, 25600, 25600, 65535⟩
      ⟨25600, 25600, 25600, 65535⟩
      (by decide) (by decide) (by decide)
      (by norm_num) (by norm_num) (by norm_num)
      (by show inClampRange (goRound ((25600 : ℚ) *
            haloFactor 25600 25600 25600 0 (257 * 0)))
          rw [halo_witness_round]; decide)
      (by show inClampRange (goRound ((25600 : ℚ) *
            haloFactor 25600 25600 25600 0 (257 * 0)))
          rw [halo_witness_round]; decide)
      (by show inClampRange (goRound ((25600 : ℚ) *
            haloFactor 25600 25600 25600 0 (257 * 0)))
          rw [halo_witness_round]; decide)
      (by show inClampRange (goRound ((25600 : ℚ) *
            haloFactor 25600 25600 25600 0 (257 * 0)))
          rw [halo_witness_round]; decide)
      (by show inClampRange (goRound ((25600 : ℚ) *
            haloFactor 25600 25600 25600 0 (257 * 0)))
          rw [halo_witness_round]; decide)
      (by show inClampRange (goRound ((25600 : ℚ) *
            haloFactor 25600 25600 25600 0 (257 * 0)))
          rw [halo_witness_round]; decide)
      (by show inClampRange (goRound ((25600 : ℚ) *
            haloFactor 25600 25600 25600 0 (257 * 0)))
          rw [halo_witness_round]; decide)
      (by show inClampRange (goRound ((25600 : ℚ) *
            haloFactor 25600 25600 25600 0 (257 * 0)))
          rw [halo_witness_round]; decide)
      (by show inClampRange (goRound ((25600 : ℚ) *
            haloFactor 25600 25600 25600 0 (257 * 0)))
          rw [halo_witness_round]; decide)⟩

/-! ### The VeilDarkener black-floor claims (C5) -/

/-- The scale as the specification words it (claim C5):
`(ulpBelowHalf / channelMax) ^ (1 / targetGamma)`.  Modeled from the
spec's words, for comparison with `thumbnailDarkenFactor`. -/
noncomputable def specDarkenScale : ℝ :=
  (ulpBelowHalf / (nrgbaMax : ℝ)) ^ ((1 : ℝ) / targetGammaR)

/-- `scaleClamp` over `ℝ`: the quantizer's clamp-scale-round step
applied in the real model (clamp above by `1.0`, scale by `max`,
`math.Round`; the values below are positive and far from half-integers,
where `round` agrees with `math.Round`). -/
noncomputable def scaleClampR (v max : ℝ) : ℝ :=
  ((round ((if v > 1 then 1 else v) * max) : ℤ) : ℝ)

theorem targetGamma_div_sourceGamma : targetGammaR / sourceGammaR = 20 := by
  unfold targetGammaR sourceGammaR
  norm_num

theorem thumbnailDarkenFactor_gt_half : 1 / 2 < thumbnailDarkenFactor := by
  obtain ⟨h1, _⟩ := thumbnailDarkenFactor_bracket
  linarith

theorem thumbnailDarkenFactor_lt_one : thumbnailDarkenFactor < 1 := by
  obtain ⟨_, h2⟩ := thumbnailDarkenFactor_bracket
  linarith

/-- C5 counterexample: the code's constant (exponent
`sourceGamma/targetGamma = 1/20`) differs from the claim's formula
(exponent `1/targetGamma = 1/44`), and the claim's "consequently"
fails: the maximum channel value times the actual scale, re-encoded by
the quantizer's step (raise to `1/targetGamma`, scale to `0..255`,
round), lands at code ≥ 128, not 0. -/
theorem thumbnailDarkenFactor_cex :
    thumbnailDarkenFactor ≠ specDarkenScale ∧
    scaleClampR (thumbnailDarkenFactor ^ ((1 : ℝ) / targetGammaR))
      (nrgbaMax : ℝ) ≠ 0 := by
  have hb0 := ulpBelowHalf_base_pos
  have hb1 := ulpBelowHalf_base_lt_one
  have hexp : (1 : ℝ) / targetGammaR = 1 / 44 := by
    unfold targetGammaR sourceGammaR
    norm_num
  constructor
  · unfold specDarkenScale thumbnailDarkenFactor
    rw [sourceGamma_div_targetGamma, hexp]
    have h := Real.rpow_lt_rpow_of_exponent_gt hb0 hb1
      (show (1 : ℝ) / 44 < 1 / 20 by norm_num)
    exact ne_of_lt h
  · rw [hexp]
    have hgt : 1 / 2 < thumbnailDarkenFactor ^ ((1 : ℝ) / 44) := by
      have h := Real.rpow_lt_rpow_of_exponent_gt
        (lt_trans (by norm_num) thumbnailDarkenFactor_gt_half)
        thumbnailDarkenFactor_lt_one (show (1 : ℝ) / 44 < 1 by norm_num)
      rw [Real.rpow_one] at h
      linarith [thumbnailDarkenFactor_gt_half]
    have hlt : thumbnailDarkenFactor ^ ((1 : ℝ) / 44) < 1 :=
      Real.rpow_lt_one
        (le_trans (by norm_num) thumbnailDarkenFactor_gt_half.le)
        thumbnailDarkenFactor_lt_one (by norm_num)
    unfold scaleClampR
    rw [if_neg (by linarith)]
    have hr : (128 : ℤ) ≤ round (thumbnailDarkenFactor ^ ((1 : ℝ) / 44)
        * (nrgbaMax : ℝ)) := by
      rw [round_eq]
      calc (128 : ℤ) = ⌊(128 : ℝ)⌋ := by norm_num
        _ ≤ ⌊thumbnailDarkenFactor ^ ((1 : ℝ) / 44) * (nrgbaMax : ℝ) + 1 / 2⌋ := by
            apply Int.floor_le_floor
            unfold nrgbaMax
            push_cast
            nlinarith
    intro hc
    have hz : round (thumbnailDarkenFactor ^ ((1 : ℝ) / 44) * (nrgbaMax : ℝ)) = 0 := by
      exact_mod_cast hc
    linarith [hr, hz.ge, hz.le]

/-- C5 amended: the scale is
`(ulpBelowHalf/channelMax) ^ (sourceGamma/targetGamma)` (the definition
of `thumbnailDarkenFactor`), and the black floor holds for the
compliant decode: the maximum channel value times the scale, raised to
`targetGamma/sourceGamma` (the exponent a gamma-aware viewer applies)
and scaled to the output integer range, rounds to output code 0. -/
theorem thumbnailDarkenFactor_black_floor :
    scaleClampR (thumbnailDarkenFactor ^ (targetGammaR / sourceGammaR))
      (nrgbaMax : ℝ) = 0 := by
  have hbase : thumbnailDarkenFactor ^ (targetGammaR / sourceGammaR)
      = ulpBelowHalf / (nrgbaMax : ℝ) := by
    rw [targetGamma_div_sourceGamma,
      show ((20 : ℝ)) = ((20 : ℕ) : ℝ) by norm_num]
    exact thumbnailDarkenFactor_pow20
  unfold scaleClampR
  rw [hbase]
  rw [if_neg (by unfold ulpBelowHalf nrgbaMax; norm_num)]
  have hv : ulpBelowHalf / (nrgbaMax : ℝ) * (nrgbaMax : ℝ) = ulpBelowHalf := by
    unfold nrgbaMax
    push_cast
    field_simp
  rw [hv, round_eq,
    show ⌊ulpBelowHalf + 1 / 2⌋ = 0 from
      Int.floor_eq_iff.mpr (by unfold ulpBelowHalf; norm_num)]
  norm_num

/-! ### Orchestrator canvas assembly (`GammaMuxImages`, source lines
661–712) -/

/-- The mutable state of the supercell loop: the canvas under
construction plus the two error rows. -/
structure LoopState where
  canvas : ℕ × ℕ → Pixel8
  errcurr : ℕ → DitherErr
  errnext : ℕ → DitherErr

/-- `dst.SetNRGBA`: a bounds-checked write (a Go `Set` outside the
destination rectangle is a no-op). -/
def setPix (W H : ℕ) (c : ℕ × ℕ → Pixel8) (x y : ℕ) (v : Pixel8) :
    ℕ × ℕ → Pixel8 :=
  fun p => if p.1 = x ∧ p.2 = y ∧ x < W ∧ y < H then v else c p

/-- The first loop of `GammaMuxImages` (source lines 680–684): every
canvas pixel holds the 8-bit conversion of the darkened thumbnail. -/
def baseCanvas (darkThumb : ℕ × ℕ → Pixel64) (W H : ℕ) : ℕ × ℕ → Pixel8 :=
  fun p => if p.1 < W ∧ p.2 < H then pixel64To8 (darkThumb p) else ⟨0, 0, 0, 0⟩

/-- One supercell iteration of the second loop of `GammaMuxImages`
(source lines 691–706): quantize the reveal sample at `(srcx, srcy)`,
halo-correct the three veil samples, and write the four canvas pixels
of the supercell anchored at `(xoff + 2*srcx, yoff + 2*srcy)`.  When
`removeHalo` leaves the finite domain (zero veil sum) the three written
color values are NaN conversions and platform-dependent; the model
writes zeroed color channels (the amd64 behavior) — no claim below
depends on them. -/
def superCellStep (ops : GammaOps) (smallfull darkThumb : ℕ × ℕ → Pixel64)
    (W H xoff yoff : ℕ) (dither : Bool) (srcy srcx : ℕ)
    (st : LoopState) : LoopState :=
  let dstx := xoff + 2 * srcx
  let dsty := yoff + 2 * srcy
  let q := calculateFullPixel ops srcx (smallfull (srcx, srcy)) dither
    st.errcurr st.errnext
  let fullPix := q.1
  let halo := removeHalo (pixel8To64 fullPix) (darkThumb (dstx, dsty))
    (darkThumb (dstx + 1, dsty)) (darkThumb (dstx, dsty + 1))
    (darkThumb (dstx + 1, dsty + 1))
  let te := match halo with
    | some (a, _, _) => a
    | none => ⟨0, 0, 0, (darkThumb (dstx + 1, dsty)).a / 256⟩
  let ts := match halo with
    | some (_, b, _) => b
    | none => ⟨0, 0, 0, (darkThumb (dstx, dsty + 1)).a / 256⟩
  let tse := match halo with
    | some (_, _, c) => c
    | none => ⟨0, 0, 0, (darkThumb (dstx + 1, dsty + 1)).a / 256⟩
  let c1 := setPix W H st.canvas dstx dsty fullPix
  let c2 := setPix W H c1 (dstx + 1) dsty te
  let c3 := setPix W H c2 dstx (dsty + 1) ts
  let c4 := setPix W H c3 (dstx + 1) (dsty + 1) tse
  { canvas := c4, errcurr := q.2.1, errnext := q.2.2 }

/-- One supercell row (source lines 687–709): roll the error rows
(`errcurr ← errnext`, fresh zero `errnext`), then run the cells left to
right. -/
def muxRow (ops : GammaOps) (smallfull darkThumb : ℕ × ℕ → Pixel64)
    (W H Wp xoff yoff : ℕ) (dither : Bool) (srcy : ℕ)
    (st : LoopState) : LoopState :=
  (List.range Wp).foldl
    (fun s srcx =>
      superCellStep ops smallfull darkThumb W H xoff yoff dither srcy srcx s)
    { canvas := st.canvas, errcurr := st.errnext,
      errnext := fun _ => DitherErr.zero }

/-- The canvas produced by `GammaMuxImages`' assembly: fill every pixel
with the 8-bit darkened veil, then overwrite the supercells row by row,
top to bottom.  `Wp × Hp` are the resampled reveal bounds, `W × H` the
canvas (thumbnail) bounds; the resize and darken stages producing
`smallfull` and `darkThumb` are abstracted as their pixel maps. -/
def gammaMuxCanvas (ops : GammaOps) (smallfull darkThumb : ℕ × ℕ → Pixel64)
    (W H Wp Hp xoff yoff : ℕ) (dither : Bool) : ℕ × ℕ → Pixel8 :=
  ((List.range Hp).foldl
    (fun s srcy =>
      muxRow ops smallfull darkThumb W H Wp xoff yoff dither srcy s)
    { canvas := baseCanvas darkThumb W H, errcurr := fun _ => DitherErr.zero,
      errnext := fun _ => DitherErr.zero }).canvas

/-- A supercell write touches only its own four cells. -/
theorem superCellStep_preserves (ops : GammaOps)
    (smallfull darkThumb : ℕ × ℕ → Pixel64) (W H xoff yoff : ℕ)
    (dither : Bool) (srcy srcx : ℕ) (st : LoopState) (p : ℕ × ℕ)
    (h1 : p ≠ (xoff + 2 * srcx, yoff + 2 * srcy))
    (h2 : p ≠ (xoff + 2 * srcx + 1, yoff + 2 * srcy))
    (h3 : p ≠ (xoff + 2 * srcx, yoff + 2 * srcy + 1))
    (h4 : p ≠ (xoff + 2 * srcx + 1, yoff + 2 * srcy + 1)) :
    (superCellStep ops smallfull darkThumb W H xoff yoff dither srcy srcx
      st).canvas p = st.canvas p := by
  have k : ∀ (x y : ℕ), p ≠ (x, y) → ¬ (p.1 = x ∧ p.2 = y ∧ x < W ∧ y < H) := by
    rintro x y hne ⟨hx, hy, _⟩
    exact hne (Prod.ext_iff.mpr ⟨hx, hy⟩)
  simp only [superCellStep, setPix]
  rw [if_neg (k _ _ h4), if_neg (k _ _ h3), if_neg (k _ _ h2), if_neg (k _ _ h1)]

/-- A fold whose every step preserves the canvas at `p` preserves the
canvas at `p`. -/
theorem foldl_canvas_invariant {α : Type} (f : α → LoopState → LoopState)
    (l : List α) (st : LoopState) (p : ℕ × ℕ)
    (h : ∀ a ∈ l, ∀ s : LoopState, (f a s).canvas p = s.canvas p) :
    (l.foldl (fun s a => f a s) st).canvas p = st.canvas p := by
  induction l generalizing st with
  | nil => rfl
  | cons a t ih =>
    rw [List.foldl_cons, ih _ (fun b hb s => h b (List.mem_cons_of_mem a hb) s)]
    exact h a (List.mem_cons_self a t) st

/-- C10: every canvas pixel not covered by any 2×2 supercell of the
resampled reveal (the fit-mode border and any odd-dimension remainder
rows/columns) equals the darkened veil pixel at the same position
converted to 8 bits per channel; and writing a supercell changes no
pixel outside that supercell. -/
theorem gammaMuxCanvas_border (ops : GammaOps)
    (smallfull darkThumb : ℕ × ℕ → Pixel64) (W H Wp Hp xoff yoff : ℕ)
    (dither : Bool) (x y : ℕ) (hx : x < W) (hy : y < H)
    (houtside : ¬ (xoff ≤ x ∧ x < xoff + 2 * Wp ∧ yoff ≤ y ∧ y < yoff + 2 * Hp)) :
    gammaMuxCanvas ops smallfull darkThumb W H Wp Hp xoff yoff dither (x, y)
      = pixel64To8 (darkThumb (x, y)) ∧
    (∀ (srcy srcx : ℕ) (st : LoopState) (p : ℕ × ℕ),
      p ≠ (xoff + 2 * srcx, yoff + 2 * srcy) →
      p ≠ (xoff + 2 * srcx + 1, yoff + 2 * srcy) →
      p ≠ (xoff + 2 * srcx, yoff + 2 * srcy + 1) →
      p ≠ (xoff + 2 * srcx + 1, yoff + 2 * srcy + 1) →
      (superCellStep ops smallfull darkThumb W H xoff yoff dither srcy srcx
        st).canvas p = st.canvas p) := by
  constructor
  · unfold gammaMuxCanvas
    have hrow : ∀ srcy ∈ List.range Hp, ∀ s : LoopState,
        (muxRow ops smallfull darkThumb W H Wp xoff yoff dither srcy
          s).canvas (x, y) = s.canvas (x, y) := by
      intro srcy hsy s
      have hsy' := List.mem_range.mp hsy
      unfold muxRow
      apply foldl_canvas_invariant
      intro srcx hsx s'
      have hsx' := List.mem_range.mp hsx
      apply superCellStep_preserves <;>
        (intro heq
         obtain ⟨hex, hey⟩ := Prod.mk.injEq .. |>.mp heq
         exact absurd (by omega) houtside)
    rw [foldl_canvas_invariant _ _ _ _ hrow]
    unfold baseCanvas
    dsimp only
    rw [if_pos ⟨hx, hy⟩]
  · intro srcy srcx st p h1 h2 h3 h4
    exact superCellStep_preserves ops smallfull darkThumb W H xoff yoff dither
      srcy srcx st p h1 h2 h3 h4

/-- Witness for `gammaMuxCanvas_border`: a 3×3 canvas with one
supercell at the origin; pixel `(2,2)` is uncovered and keeps the
darkened-veil value. -/
theorem gammaMuxCanvas_border_witness :
    (2 : ℕ) < 3 ∧
    ¬ ((0 : ℕ) ≤ 2 ∧ 2 < 0 + 2 * 1 ∧ (0 : ℕ) ≤ 2 ∧ 2 < 0 + 2 * 1) ∧
    gammaMuxCanvas ⟨fun v => v, fun v => v⟩ (fun _ => ⟨100, 200, 300, 65535⟩)
      (fun _ => ⟨40000, 30000, 20000, 65535⟩) 3 3 1 1 0 0 false (2, 2)
      = pixel64To8 ⟨40000, 30000, 20000, 65535⟩ :=
  ⟨by decide, by decide,
    (gammaMuxCanvas_border ⟨fun v => v, fun v => v⟩
      (fun _ => ⟨100, 200, 300, 65535⟩) (fun _ => ⟨40000, 30000, 20000, 65535⟩)
      3 3 1 1 0 0 false 2 2 (by decide) (by decide) (by decide)).1⟩

end Gammux
